import Mathlib

/-!
# Verification of the couple-calendar proposal store (`data_manager.py` / `app.py`)

Shallow embedding of the proposal lifecycle and storage layer of the
couple-calendar app.  The mock (in-memory) backend of `DataManager` is
modelled as explicit state passing over `MockState`; the remote
spreadsheet row handling (`fetch_data`, `append_row`) is modelled over
`List (List String)`.  Nondeterministic inputs of the source (the wall
clock readings used for `id` and `created_at`) are passed as explicit
string parameters.
-/

set_option autoImplicit false

namespace CoupleCalendar

/-- Python's `str.strip()`: removes leading and trailing whitespace
characters.  Defined on the underlying character list so that it is fully
executable. -/
def strip (s : String) : String :=
  ⟨(((s.data.dropWhile Char.isWhitespace).reverse).dropWhile Char.isWhitespace).reverse⟩

/-- A proposal record: the 8-column layout
`id | user | title | category | proposed_date | status | created_at | scheduled_date`
used both by the mock DataFrame and by the remote sheet
(`data_manager.py`, `_check_and_init_header` and `_init_mock_data`). -/
structure Proposal where
  id : String
  user : String
  title : String
  category : String
  proposed_date : String
  status : String
  created_at : String
  scheduled_date : String
  deriving DecidableEq, Repr

/-- The state of the mock backend: `st.session_state.mock_db` and
`st.session_state.mock_categories` (`data_manager.py`, `_init_mock_data`). -/
structure MockState where
  mock_db : List Proposal
  mock_categories : List String
  deriving DecidableEq, Repr

/-- `df[df['id'] == item_id].index; st.session_state.mock_db.at[idx[0], ...]`:
pandas row lookup by id hits every matching row's index, and the mutating
operations of `data_manager.py` write through `idx[0]`, the first match.
`updateFirstBy db item_id f` applies `f` to the first proposal whose `id`
equals `item_id` and leaves everything else unchanged. -/
def updateFirstBy : List Proposal → String → (Proposal → Proposal) → List Proposal
  | [], _, _ => []
  | p :: rest, item_id, f =>
      if p.id = item_id then f p :: rest else p :: updateFirstBy rest item_id f

/-- `not idx.empty` for `idx = df[df['id'] == item_id].index`: whether some
stored proposal has the given id. -/
def hasId (db : List Proposal) (item_id : String) : Bool :=
  db.any (fun p => p.id = item_id)

/-- `DataManager.add_proposal` (mock branch, `data_manager.py` lines 157-173).
`ts` stands for the wall clock reading `str(datetime.datetime.now().timestamp())`
used as the id, and `createdAt` for `datetime.datetime.now().isoformat()`.
The new row is appended and the call returns `True` unconditionally. -/
def add_proposal (st : MockState) (user title category proposed_date ts createdAt : String) :
    Bool × MockState :=
  let new_row : Proposal :=
    { id := ts
      user := user
      title := title
      category := category
      proposed_date := if proposed_date = "" then "" else proposed_date
      status := "pending"
      created_at := createdAt
      scheduled_date := "" }
  (true, { st with mock_db := st.mock_db ++ [new_row] })

/-- The submission flow of the UI (`app.py` lines 298-305): the form handler
calls `db.add_proposal` only when `f_title` is truthy (a non-empty string);
otherwise it shows an error and performs no write. -/
def submitForm (st : MockState) (user title category proposed_date ts createdAt : String) :
    Bool × MockState :=
  if title ≠ "" then add_proposal st user title category proposed_date ts createdAt
  else (false, st)

/-- `DataManager.approve_proposal` (mock branch, `data_manager.py` lines 201-209):
looks the row up by id and, when found, sets `status` to `"approved"`
(no check of the current status) and returns `True`; returns `False` when
no row matches. -/
def approve_proposal (st : MockState) (item_id : String) : Bool × MockState :=
  if hasId st.mock_db item_id then
    (true, { st with
      mock_db := updateFirstBy st.mock_db item_id (fun p => { p with status := "approved" }) })
  else (false, st)

/-- `DataManager.schedule_proposal` (mock branch, `data_manager.py` lines 252-259):
looks the row up by id and, when found, sets `status := "scheduled"` and
`scheduled_date := str(scheduled_date)` (no check of the current status)
and returns `True`; returns `False` when no row matches. -/
def schedule_proposal (st : MockState) (item_id scheduled_date : String) : Bool × MockState :=
  if hasId st.mock_db item_id then
    (true, { st with
      mock_db := updateFirstBy st.mock_db item_id
        (fun p => { p with status := "scheduled", scheduled_date := scheduled_date }) })
  else (false, st)

/-- `DataManager.update_category` (mock branch, `data_manager.py` lines 366-387):
trims the new name, rejects an empty or already-existing name, otherwise
replaces the name in the category list, counts and rewrites every proposal
tagged with the old name, and reports the count in the success message. -/
def update_category (st : MockState) (old_name new_name : String) :
    Bool × String × MockState :=
  let new_name := strip new_name
  if new_name = "" then (false, "新しいカテゴリ名が空です", st)
  else if new_name ∈ st.mock_categories then
    (false, "そのカテゴリ名は既に存在します", st)
  else
    let cats := st.mock_categories.map (fun c => if c = old_name then new_name else c)
    let count := (st.mock_db.filter (fun p => p.category = old_name)).length
    let db := st.mock_db.map
      (fun p => if p.category = old_name then { p with category := new_name } else p)
    (true, "カテゴリ名を変更しました（影響: " ++ toString count ++ "件）",
      { mock_db := db, mock_categories := cats })

/-- One entry of the `col in df.columns` update loop of
`DataManager.update_proposal` (mock branch, `data_manager.py` lines 432-434):
a key naming one of the 8 DataFrame columns overwrites that column of the
row, any other key is ignored. -/
def setField (p : Proposal) (col val : String) : Proposal :=
  if col = "id" then { p with id := val }
  else if col = "user" then { p with user := val }
  else if col = "title" then { p with title := val }
  else if col = "category" then { p with category := val }
  else if col = "proposed_date" then { p with proposed_date := val }
  else if col = "status" then { p with status := val }
  else if col = "created_at" then { p with created_at := val }
  else if col = "scheduled_date" then { p with scheduled_date := val }
  else p

/-- `DataManager.update_proposal` (mock branch, `data_manager.py` lines 428-436):
finds the first row with the given id and applies every `(col, val)` pair of
`updates` in order through the DataFrame columns; returns `False` when no row
matches. -/
def update_proposal (st : MockState) (item_id : String) (updates : List (String × String)) :
    Bool × MockState :=
  if hasId st.mock_db item_id then
    (true, { st with
      mock_db := updateFirstBy st.mock_db item_id
        (fun p => updates.foldl (fun q kv => setField q kv.1 kv.2) p) })
  else (false, st)

/-- One entry of the `col_map` update loop of `DataManager.update_proposal`
(remote branch, `data_manager.py` lines 445-457): only `title`, `category`,
`proposed_date`, `status` and `scheduled_date` have a column number in
`col_map`; any other key — in particular `created_at` — is skipped. -/
def setFieldRemote (p : Proposal) (col val : String) : Proposal :=
  if col = "title" then { p with title := val }
  else if col = "category" then { p with category := val }
  else if col = "proposed_date" then { p with proposed_date := val }
  else if col = "status" then { p with status := val }
  else if col = "scheduled_date" then { p with scheduled_date := val }
  else p

/-- The whole `for col_name, val in updates.items()` loop of the remote branch
of `DataManager.update_proposal`, acting on the row found by id. -/
def applyUpdatesRemote (p : Proposal) (updates : List (String × String)) : Proposal :=
  updates.foldl (fun q kv => setFieldRemote q kv.1 kv.2) p

/-- Row normalization inside `DataManager.fetch_data` (remote branch,
`data_manager.py` lines 140-149): a row shorter than the 8 expected columns
is padded with empty strings, a longer one is truncated to the first 8 cells. -/
def normalizeRow (row : List String) : List String :=
  if row.length < 8 then row ++ List.replicate (8 - row.length) ""
  else if row.length > 8 then row.take 8
  else row

/-- `DataManager.fetch_data` (remote branch, `data_manager.py` lines 126-152)
on the raw cell grid returned by `get_all_values()`: fewer than 2 rows
(header only, or empty) yields an empty result; otherwise the header row is
dropped and every data row is normalized to 8 cells. -/
def fetch_data_rows (rows : List (List String)) : List (List String) :=
  if rows.length < 2 then [] else (rows.drop 1).map normalizeRow

/-- The explicit positional list built by the remote branch of
`DataManager.add_proposal` (`data_manager.py` lines 178-181) and passed to
`sheet.append_row`. -/
def proposalToRow (p : Proposal) : List String :=
  [p.id, p.user, p.title, p.category, p.proposed_date, p.status, p.created_at, p.scheduled_date]

/-- Positional decoding of a sheet row back into a record, following the
fixed 8-column layout `expected_cols` of `fetch_data`. -/
def rowToProposal (row : List String) : Proposal :=
  { id := row.getD 0 ""
    user := row.getD 1 ""
    title := row.getD 2 ""
    category := row.getD 3 ""
    proposed_date := row.getD 4 ""
    status := row.getD 5 ""
    created_at := row.getD 6 ""
    scheduled_date := row.getD 7 "" }

/-- The fixed fallback category set `["旅行", "グルメ", "家", "日常"]` of
`DataManager.fetch_categories` (`data_manager.py` lines 296-324). -/
def defaultCategories : List String := ["旅行", "グルメ", "家", "日常"]

/-- The `for r in raw_rows[1:]` deduplication loop of
`DataManager.fetch_categories` (remote branch, `data_manager.py` lines
313-319): each entry is trimmed, empty entries and entries already seen are
skipped, everything else is appended to the result and recorded as seen. -/
def dedupeLoop : List String → List String → List String → List String
  | [], categories, _ => categories
  | r :: rest, categories, seen =>
      let r := strip r
      if r ≠ "" ∧ ¬ (r ∈ seen) then dedupeLoop rest (categories ++ [r]) (r :: seen)
      else dedupeLoop rest categories seen

/-- `DataManager.fetch_categories` (remote branch, `data_manager.py` lines
298-324) on the column read from the `categories` worksheet: `none` stands
for an unreachable backing collection (`_get_categories_from_sheet` returned
`None` or raised). A missing or single-row (header only) column yields the
default set; otherwise the header is dropped, the remaining entries are
trimmed and deduplicated, and an empty result again yields the default set. -/
def fetch_categories_remote (raw : Option (List String)) : List String :=
  match raw with
  | none => defaultCategories
  | some raw_rows =>
      if raw_rows.length ≤ 1 then defaultCategories
      else
        let categories := dedupeLoop (raw_rows.drop 1) [] []
        if categories = [] then defaultCategories else categories

/-- Fuel-indexed helper for `keepFirst`; the fuel is an upper bound on the
list length, so the recursion is structural (and hence executable). -/
def keepFirstFuel : Nat → List String → List String
  | _, [] => []
  | 0, _ :: _ => []
  | fuel + 1, x :: xs => x :: keepFirstFuel fuel (xs.filter (fun y => y ≠ x))

/-- Modelled from the spec: "duplicates after trimming are collapsed keeping
only the first occurrence in order".  `keepFirst` keeps each element's first
occurrence and erases all its later duplicates; it is compared with the
source-derived `dedupeLoop`. -/
def keepFirst (l : List String) : List String :=
  keepFirstFuel l.length l

lemma updateFirstBy_map {α : Type} (g : Proposal → α) (f : Proposal → Proposal)
    (hf : ∀ p, g (f p) = g p) (db : List Proposal) (item_id : String) :
    (updateFirstBy db item_id f).map g = db.map g := by
  induction db with
  | nil => rfl
  | cons p rest ih =>
      simp only [updateFirstBy]
      by_cases h : p.id = item_id
      · simp [h, hf]
      · simp [h, ih]

lemma hasId_updateFirstBy (f : Proposal → Proposal) (hf : ∀ p, (f p).id = p.id)
    (db : List Proposal) (item_id j : String) :
    hasId (updateFirstBy db item_id f) j = hasId db j := by
  induction db with
  | nil => rfl
  | cons p rest ih =>
      simp only [updateFirstBy]
      by_cases h : p.id = item_id
      · simp [hasId, hf, h]
      · rw [if_neg h]
        simp only [hasId, List.any_cons] at ih ⊢
        rw [ih]

lemma exists_updated_of_hasId (f : Proposal → Proposal) (db : List Proposal) (item_id : String)
    (h : hasId db item_id = true) :
    ∃ q : Proposal, q.id = item_id ∧ f q ∈ updateFirstBy db item_id f := by
  induction db with
  | nil => simp [hasId] at h
  | cons p rest ih =>
      by_cases hp : p.id = item_id
      · exact ⟨p, hp, by simp [updateFirstBy, hp]⟩
      · have h' : hasId rest item_id = true := by
          simpa [hasId, hp] using h
        obtain ⟨q, hq1, hq2⟩ := ih h'
        refine ⟨q, hq1, ?_⟩
        simp only [updateFirstBy, if_neg hp, List.mem_cons]
        exact Or.inr hq2

/-- C1 (amended): `approve_proposal` succeeds exactly when a proposal with
the given id exists, regardless of its current status; when the id exists,
a second approve call in a row also succeeds, and the store after the first
call holds a proposal with that id whose status is `"approved"`. -/
theorem C1_approve_succeeds_iff_id_exists (st : MockState) (item_id : String) :
    (approve_proposal st item_id).1 = hasId st.mock_db item_id ∧
    (hasId st.mock_db item_id = true →
      (approve_proposal (approve_proposal st item_id).2 item_id).1 = true ∧
      ∃ p ∈ (approve_proposal st item_id).2.mock_db, p.id = item_id ∧ p.status = "approved") := by
  constructor
  · unfold approve_proposal
    by_cases h : hasId st.mock_db item_id <;> simp [h]
  · intro h
    constructor
    · have hpres : hasId (updateFirstBy st.mock_db item_id
          (fun p => { p with status := "approved" })) item_id = true := by
        rw [hasId_updateFirstBy (fun p => { p with status := "approved" }) (fun p => rfl)]
        exact h
      simp [approve_proposal, h, hpres]
    · obtain ⟨q, hq1, hq2⟩ := exists_updated_of_hasId
        (fun p => { p with status := "approved" }) st.mock_db item_id h
      refine ⟨{ q with status := "approved" }, ?_, hq1, rfl⟩
      simpa [approve_proposal, h] using hq2

/-- C1 witness: on a store holding one pending proposal with id `"1"`,
approving `"1"` succeeds, approving again also succeeds, and the proposal is
`"approved"` after the first call. -/
theorem C1_approve_witness :
    (approve_proposal ⟨[⟨"1", "あなた", "温泉旅行", "旅行", "", "pending", "T0", ""⟩], ["旅行"]⟩
        "1").1 = true ∧
    (approve_proposal
        (approve_proposal ⟨[⟨"1", "あなた", "温泉旅行", "旅行", "", "pending", "T0", ""⟩], ["旅行"]⟩
          "1").2 "1").1 = true ∧
    ∃ p ∈ (approve_proposal
        ⟨[⟨"1", "あなた", "温泉旅行", "旅行", "", "pending", "T0", ""⟩], ["旅行"]⟩ "1").2.mock_db,
      p.id = "1" ∧ p.status = "approved" := by
  have h := C1_approve_succeeds_iff_id_exists
    ⟨[⟨"1", "あなた", "温泉旅行", "旅行", "", "pending", "T0", ""⟩], ["旅行"]⟩ "1"
  have h2 := h.2 (by decide)
  exact ⟨by rw [h.1]; decide, h2.1, h2.2⟩

/-- C1 counterexample: approving a proposal whose status is already
`"approved"` succeeds (the claim demands failure), and approving the same
pending proposal twice in a row succeeds both times (the claim demands that
the second call fail). -/
theorem C1_counterexample :
    (approve_proposal ⟨[⟨"1", "あなた", "温泉旅行", "旅行", "", "approved", "T0", ""⟩], ["旅行"]⟩
        "1").1 = true ∧
    (approve_proposal
        (approve_proposal ⟨[⟨"1", "あなた", "温泉旅行", "旅行", "", "pending", "T0", ""⟩], ["旅行"]⟩
          "1").2 "1").1 = true := by
  decide

/-- C2 (amended): `schedule_proposal` succeeds exactly when a proposal with
the given id exists, regardless of its current status (in particular it
succeeds on a still-pending proposal and schedules it directly); when the id
exists, the store afterwards holds a proposal with that id whose status is
`"scheduled"` and whose `scheduled_date` equals the given date. -/
theorem C2_schedule_succeeds_iff_id_exists (st : MockState) (item_id d : String) :
    (schedule_proposal st item_id d).1 = hasId st.mock_db item_id ∧
    (hasId st.mock_db item_id = true →
      ∃ p ∈ (schedule_proposal st item_id d).2.mock_db,
        p.id = item_id ∧ p.status = "scheduled" ∧ p.scheduled_date = d) := by
  constructor
  · unfold schedule_proposal
    by_cases h : hasId st.mock_db item_id <;> simp [h]
  · intro h
    obtain ⟨q, hq1, hq2⟩ := exists_updated_of_hasId
      (fun p => { p with status := "scheduled", scheduled_date := d }) st.mock_db item_id h
    refine ⟨{ q with status := "scheduled", scheduled_date := d }, ?_, hq1, rfl, rfl⟩
    simpa [schedule_proposal, h] using hq2

/-- C2 witness: on a store holding one approved proposal with id `"1"`,
scheduling it for `"2024-07-01"` succeeds and the proposal afterwards has
status `"scheduled"` and that scheduled date. -/
theorem C2_schedule_witness :
    (schedule_proposal ⟨[⟨"1", "あなた", "温泉旅行", "旅行", "", "approved", "T0", ""⟩], ["旅行"]⟩
        "1" "2024-07-01").1 = true ∧
    ∃ p ∈ (schedule_proposal
        ⟨[⟨"1", "あなた", "温泉旅行", "旅行", "", "approved", "T0", ""⟩], ["旅行"]⟩
        "1" "2024-07-01").2.mock_db,
      p.id = "1" ∧ p.status = "scheduled" ∧ p.scheduled_date = "2024-07-01" := by
  have h := C2_schedule_succeeds_iff_id_exists
    ⟨[⟨"1", "あなた", "温泉旅行", "旅行", "", "approved", "T0", ""⟩], ["旅行"]⟩ "1" "2024-07-01"
  exact ⟨by rw [h.1]; decide, h.2 (by decide)⟩

/-- C2 counterexample: scheduling a proposal that is still `"pending"`
(never approved) succeeds and changes its status to `"scheduled"`, while the
claim demands that the call fail and leave the status unchanged. -/
theorem C2_counterexample :
    (schedule_proposal ⟨[⟨"1", "あなた", "温泉旅行", "旅行", "", "pending", "T0", ""⟩], ["旅行"]⟩
        "1" "2024-07-01").1 = true ∧
    (schedule_proposal ⟨[⟨"1", "あなた", "温泉旅行", "旅行", "", "pending", "T0", ""⟩], ["旅行"]⟩
        "1" "2024-07-01").2.mock_db =
      [⟨"1", "あなた", "温泉旅行", "旅行", "", "scheduled", "T0", "2024-07-01"⟩] := by
  decide

/-- C3 (amended): the submission flow rejects only a title that is exactly
the empty string (the UI guard `if f_title:`), performing no write in that
case; every other title — including a whitespace-only title, which is empty
after trimming — is accepted and its row is durably appended.
`DataManager.add_proposal` itself performs no title validation and always
succeeds in mock mode. -/
theorem C3_empty_title_handling (st : MockState)
    (user category proposed_date ts createdAt : String) :
    submitForm st user "" category proposed_date ts createdAt = (false, st) ∧
    (∀ title, title ≠ "" →
      (submitForm st user title category proposed_date ts createdAt).1 = true ∧
      (submitForm st user title category proposed_date ts createdAt).2.mock_db =
        st.mock_db ++
          [{ id := ts, user := user, title := title, category := category,
             proposed_date := if proposed_date = "" then "" else proposed_date,
             status := "pending", created_at := createdAt, scheduled_date := "" }]) ∧
    (∀ title, (add_proposal st user title category proposed_date ts createdAt).1 = true) := by
  refine ⟨by simp [submitForm], fun title ht => ?_, fun _ => rfl⟩
  constructor
  · simp [submitForm, ht, add_proposal]
  · simp [submitForm, ht, add_proposal]

/-- C3 witness: the exactly-empty title is rejected with the store
unchanged, while a normal title is accepted. -/
theorem C3_empty_title_witness :
    submitForm ⟨[], ["旅行"]⟩ "あなた" "" "旅行" "" "TS1" "CA1" = (false, ⟨[], ["旅行"]⟩) ∧
    (submitForm ⟨[], ["旅行"]⟩ "あなた" "散歩" "旅行" "" "TS1" "CA1").1 = true := by
  have h := C3_empty_title_handling ⟨[], ["旅行"]⟩ "あなた" "旅行" "" "TS1" "CA1"
  exact ⟨h.1, (h.2.1 "散歩" (by decide)).1⟩

/-- C3 counterexample: a whitespace-only title `" "` is empty after
trimming, yet the submission succeeds and performs a durable write (the
empty store gains a row), contradicting the claim. -/
theorem C3_counterexample :
    strip " " = "" ∧
    (submitForm ⟨[], ["旅行"]⟩ "あなた" " " "旅行" "" "TS1" "CA1").1 = true ∧
    (submitForm ⟨[], ["旅行"]⟩ "あなた" " " "旅行" "" "TS1" "CA1").2.mock_db ≠ [] := by
  decide

/-- C5: renaming a category to a name that (after trimming) already exists
among the current categories is rejected with a message, and the state —
category list and every proposal — is unchanged.  (When the trimmed new name
is empty, the emptiness check fires first; the call still fails with a
message and no mutation.) -/
theorem C5_rename_to_existing_rejected (st : MockState) (old_name new_name : String)
    (h : strip new_name ∈ st.mock_categories) :
    (update_category st old_name new_name).1 = false ∧
    (update_category st old_name new_name).2.1 ≠ "" ∧
    (update_category st old_name new_name).2.2 = st := by
  unfold update_category
  by_cases he : strip new_name = ""
  · rw [if_pos he]
    refine ⟨rfl, ?_, rfl⟩
    show ("新しいカテゴリ名が空です" : String) ≠ ""
    decide
  · rw [if_neg he, if_pos h]
    refine ⟨rfl, ?_, rfl⟩
    show ("そのカテゴリ名は既に存在します" : String) ≠ ""
    decide

/-- C5 witness: renaming `"旅行"` to `" 家 "` when `"家"` is already a
category fails and mutates nothing. -/
theorem C5_rename_witness :
    (update_category ⟨[⟨"1", "u", "t", "家", "", "pending", "T0", ""⟩], ["旅行", "家"]⟩
        "旅行" " 家 ").1 = false ∧
    (update_category ⟨[⟨"1", "u", "t", "家", "", "pending", "T0", ""⟩], ["旅行", "家"]⟩
        "旅行" " 家 ").2.1 ≠ "" ∧
    (update_category ⟨[⟨"1", "u", "t", "家", "", "pending", "T0", ""⟩], ["旅行", "家"]⟩
        "旅行" " 家 ").2.2 =
      ⟨[⟨"1", "u", "t", "家", "", "pending", "T0", ""⟩], ["旅行", "家"]⟩ :=
  C5_rename_to_existing_rejected
    ⟨[⟨"1", "u", "t", "家", "", "pending", "T0", ""⟩], ["旅行", "家"]⟩ "旅行" " 家 " (by decide)

/-- C6: the id of a new proposal is `str(datetime.datetime.now().timestamp())`
with no uniqueness check, so two submissions performed at the same clock
reading are both accepted and receive the same id, violating the uniqueness
invariant the spec states (and the spec's own advice against wall-clock-only
ids). -/
theorem C6_id_collision :
    ((add_proposal
        ((add_proposal ⟨[], ["旅行"]⟩ "あなた" "温泉旅行" "旅行" "" "1700000000.0" "T1").2)
        "彼女" "映画" "旅行" "" "1700000000.0" "T2").2).mock_db.map Proposal.id =
      ["1700000000.0", "1700000000.0"] ∧
    ¬ (((add_proposal
        ((add_proposal ⟨[], ["旅行"]⟩ "あなた" "温泉旅行" "旅行" "" "1700000000.0" "T1").2)
        "彼女" "映画" "旅行" "" "1700000000.0" "T2").2).mock_db.map Proposal.id).Nodup ∧
    (add_proposal ⟨[], ["旅行"]⟩ "あなた" "温泉旅行" "旅行" "" "1700000000.0" "T1").1 = true ∧
    (add_proposal
        ((add_proposal ⟨[], ["旅行"]⟩ "あなた" "温泉旅行" "旅行" "" "1700000000.0" "T1").2)
        "彼女" "映画" "旅行" "" "1700000000.0" "T2").1 = true := by
  decide

/-- C4: renaming category `A → B` with `A` current and the trimmed `B` new
and non-empty succeeds; afterwards the category list has `A` replaced by the
trimmed `B` (so no longer contains `A`, contains `B`), every proposal tagged
`A` is retagged, no other proposal changes, and the success message reports
the number of proposals tagged `A` before the rename. -/
theorem C4_rename_cascade (st : MockState) (old_name new_name : String)
    (h1 : strip new_name ≠ "") (h2 : old_name ∈ st.mock_categories)
    (h3 : strip new_name ∉ st.mock_categories) :
    (update_category st old_name new_name).1 = true ∧
    (update_category st old_name new_name).2.1 =
      "カテゴリ名を変更しました（影響: " ++
        toString ((st.mock_db.filter (fun p => p.category = old_name)).length) ++ "件）" ∧
    old_name ∉ (update_category st old_name new_name).2.2.mock_categories ∧
    strip new_name ∈ (update_category st old_name new_name).2.2.mock_categories ∧
    (update_category st old_name new_name).2.2.mock_categories =
      st.mock_categories.map (fun c => if c = old_name then strip new_name else c) ∧
    (update_category st old_name new_name).2.2.mock_db =
      st.mock_db.map
        (fun p =>
          if p.category = old_name then { p with category := strip new_name } else p) := by
  have hne : old_name ≠ strip new_name := fun hcontra => h3 (hcontra ▸ h2)
  simp only [update_category]
  rw [if_neg h1, if_neg h3]
  refine ⟨rfl, rfl, ?_, ?_, rfl, rfl⟩
  · show old_name ∉ st.mock_categories.map (fun c => if c = old_name then strip new_name else c)
    intro hmem
    rw [List.mem_map] at hmem
    obtain ⟨c, _, hceq⟩ := hmem
    by_cases hco : c = old_name
    · rw [if_pos hco] at hceq
      exact hne hceq.symm
    · rw [if_neg hco] at hceq
      exact hco hceq
  · show strip new_name ∈
      st.mock_categories.map (fun c => if c = old_name then strip new_name else c)
    rw [List.mem_map]
    exact ⟨old_name, h2, by simp⟩

/-- C4 witness: renaming `"旅行"` to `" 温泉 "` on a store with one
`"旅行"`-tagged and one `"家"`-tagged proposal succeeds, reports 1 affected
row, and rewrites exactly the `"旅行"` entries. -/
theorem C4_rename_witness :
    (update_category
        (MockState.mk
          [⟨"1", "u", "t", "旅行", "", "pending", "T0", ""⟩,
           ⟨"2", "v", "s", "家", "", "pending", "T0", ""⟩]
          ["旅行", "家"]) "旅行" " 温泉 ").1 = true ∧
    (update_category
        (MockState.mk
          [⟨"1", "u", "t", "旅行", "", "pending", "T0", ""⟩,
           ⟨"2", "v", "s", "家", "", "pending", "T0", ""⟩]
          ["旅行", "家"]) "旅行" " 温泉 ").2.1 =
      "カテゴリ名を変更しました（影響: 1件）" ∧
    (update_category
        (MockState.mk
          [⟨"1", "u", "t", "旅行", "", "pending", "T0", ""⟩,
           ⟨"2", "v", "s", "家", "", "pending", "T0", ""⟩]
          ["旅行", "家"]) "旅行" " 温泉 ").2.2.mock_categories = ["温泉", "家"] ∧
    (update_category
        (MockState.mk
          [⟨"1", "u", "t", "旅行", "", "pending", "T0", ""⟩,
           ⟨"2", "v", "s", "家", "", "pending", "T0", ""⟩]
          ["旅行", "家"]) "旅行" " 温泉 ").2.2.mock_db =
      [⟨"1", "u", "t", "温泉", "", "pending", "T0", ""⟩,
       ⟨"2", "v", "s", "家", "", "pending", "T0", ""⟩] := by
  have h := C4_rename_cascade
    (MockState.mk
      [⟨"1", "u", "t", "旅行", "", "pending", "T0", ""⟩,
       ⟨"2", "v", "s", "家", "", "pending", "T0", ""⟩]
      ["旅行", "家"]) "旅行" " 温泉 " (by decide) (by decide) (by decide)
  refine ⟨h.1, ?_, ?_, ?_⟩
  · rw [h.2.1]; decide
  · rw [h.2.2.2.2.1]; decide
  · rw [h.2.2.2.2.2]; decide

/-- C8: appending a proposal's 8-cell positional row to a non-empty sheet
(header present) and fetching the data back returns that row, unchanged, as
the last record, and positional decoding reconstructs every one of the 8
fields. -/
theorem C8_roundtrip (sheet : List (List String)) (p : Proposal) (h : sheet ≠ []) :
    (fetch_data_rows (sheet ++ [proposalToRow p])).getLast? = some (proposalToRow p) ∧
    rowToProposal (proposalToRow p) = p := by
  constructor
  · obtain ⟨s0, srest, rfl⟩ := List.exists_cons_of_ne_nil h
    have hlen : ¬ ((s0 :: srest) ++ [proposalToRow p]).length < 2 := by
      simp [List.length_append]
    rw [fetch_data_rows, if_neg hlen]
    have hdrop : ((s0 :: srest) ++ [proposalToRow p]).drop 1 = srest ++ [proposalToRow p] := by
      simp
    rw [hdrop, List.map_append]
    have hnorm : normalizeRow (proposalToRow p) = proposalToRow p := by
      simp [normalizeRow, proposalToRow]
    simp [hnorm]
  · rfl

/-- C8 witness: a concrete proposal row survives the append–fetch
round trip behind a header row. -/
theorem C8_roundtrip_witness :
    (fetch_data_rows
        ([["id", "user", "title", "category", "proposed_date", "status", "created_at",
            "scheduled_date"]] ++
          [proposalToRow ⟨"1", "あなた", "温泉旅行", "旅行", "2024-06-01", "pending", "T0", ""⟩])).getLast?
      = some (proposalToRow ⟨"1", "あなた", "温泉旅行", "旅行", "2024-06-01", "pending", "T0", ""⟩) ∧
    rowToProposal (proposalToRow ⟨"1", "あなた", "温泉旅行", "旅行", "2024-06-01", "pending", "T0", ""⟩)
      = ⟨"1", "あなた", "温泉旅行", "旅行", "2024-06-01", "pending", "T0", ""⟩ :=
  C8_roundtrip
    [["id", "user", "title", "category", "proposed_date", "status", "created_at",
       "scheduled_date"]]
    ⟨"1", "あなた", "温泉旅行", "旅行", "2024-06-01", "pending", "T0", ""⟩ (by decide)

/-- C10: every row returned by the remote fetch has exactly 8 fields: a
short row is padded with empty strings, a long row is truncated to its first
8 cells, and an 8-cell row passes through unchanged. -/
theorem C10_rows_normalized_to_8 :
    (∀ rows row, row ∈ fetch_data_rows rows → row.length = 8) ∧
    (∀ row : List String, (normalizeRow row).length = 8) ∧
    (∀ row : List String, row.length ≤ 8 →
      normalizeRow row = row ++ List.replicate (8 - row.length) "") ∧
    (∀ row : List String, 8 ≤ row.length → normalizeRow row = row.take 8) := by
  have hlen : ∀ row : List String, (normalizeRow row).length = 8 := by
    intro row
    unfold normalizeRow
    by_cases h1 : row.length < 8
    · rw [if_pos h1]
      rw [List.length_append, List.length_replicate]
      omega
    · rw [if_neg h1]
      by_cases h2 : row.length > 8
      · rw [if_pos h2, List.length_take]
        omega
      · rw [if_neg h2]
        omega
  refine ⟨?_, hlen, ?_, ?_⟩
  · intro rows row hmem
    unfold fetch_data_rows at hmem
    by_cases h : rows.length < 2
    · rw [if_pos h] at hmem
      simp at hmem
    · rw [if_neg h, List.mem_map] at hmem
      obtain ⟨r, _, rfl⟩ := hmem
      exact hlen r
  · intro row h
    unfold normalizeRow
    by_cases h1 : row.length < 8
    · rw [if_pos h1]
    · rw [if_neg h1, if_neg (by omega)]
      rw [show 8 - row.length = 0 by omega]
      simp
  · intro row h
    unfold normalizeRow
    by_cases h2 : row.length > 8
    · rw [if_neg (by omega), if_pos h2]
    · rw [if_neg (by omega), if_neg h2]
      rw [List.take_of_length_le (by omega)]

/-- C10 witness: a 1-cell row is padded to 8 cells and a 9-cell row is
truncated to 8 cells. -/
theorem C10_normalize_witness :
    normalizeRow ["a"] = ["a"] ++ List.replicate (8 - (["a"] : List String).length) "" ∧
    normalizeRow ["a", "b", "c", "d", "e", "f", "g", "h", "i"] =
      (["a", "b", "c", "d", "e", "f", "g", "h", "i"] : List String).take 8 :=
  ⟨C10_rows_normalized_to_8.2.2.1 ["a"] (by decide),
   C10_rows_normalized_to_8.2.2.2 ["a", "b", "c", "d", "e", "f", "g", "h", "i"] (by decide)⟩

lemma setField_created_at (p : Proposal) (col val : String) (h : col ≠ "created_at") :
    (setField p col val).created_at = p.created_at := by
  unfold setField
  split_ifs <;> simp_all

lemma foldl_setField_created_at (updates : List (String × String)) (p : Proposal)
    (h : "created_at" ∉ updates.map Prod.fst) :
    (updates.foldl (fun q kv => setField q kv.1 kv.2) p).created_at = p.created_at := by
  induction updates generalizing p with
  | nil => rfl
  | cons kv rest ih =>
      simp only [List.map_cons, List.mem_cons, not_or] at h
      rw [List.foldl_cons, ih _ (by simpa using h.2)]
      exact setField_created_at p kv.1 kv.2 (fun hc => h.1 hc.symm)

lemma setFieldRemote_created_at (p : Proposal) (col val : String) :
    (setFieldRemote p col val).created_at = p.created_at := by
  unfold setFieldRemote
  split_ifs <;> rfl

lemma applyUpdatesRemote_created_at (updates : List (String × String)) (p : Proposal) :
    (applyUpdatesRemote p updates).created_at = p.created_at := by
  unfold applyUpdatesRemote
  induction updates generalizing p with
  | nil => rfl
  | cons kv rest ih =>
      rw [List.foldl_cons, ih]
      exact setFieldRemote_created_at p kv.1 kv.2

/-- C9 (amended): `created_at` is preserved by approve, schedule and
category rename; the remote field-mapping update ignores a `created_at` key
entirely (its column map has no entry for it); the mock field-mapping update
preserves `created_at` whenever the mapping does not contain the key
`"created_at"` — but, unlike the remote branch, it does overwrite
`created_at` when that key is passed. -/
theorem C9_created_at_preservation (st : MockState)
    (item_id d old_name new_name : String) (updates : List (String × String)) :
    (approve_proposal st item_id).2.mock_db.map Proposal.created_at =
      st.mock_db.map Proposal.created_at ∧
    (schedule_proposal st item_id d).2.mock_db.map Proposal.created_at =
      st.mock_db.map Proposal.created_at ∧
    (update_category st old_name new_name).2.2.mock_db.map Proposal.created_at =
      st.mock_db.map Proposal.created_at ∧
    ("created_at" ∉ updates.map Prod.fst →
      (update_proposal st item_id updates).2.mock_db.map Proposal.created_at =
        st.mock_db.map Proposal.created_at) ∧
    (∀ p, (applyUpdatesRemote p updates).created_at = p.created_at) := by
  refine ⟨?_, ?_, ?_, ?_, fun p => applyUpdatesRemote_created_at updates p⟩
  · by_cases h : hasId st.mock_db item_id
    · simp only [approve_proposal, h, if_true]
      exact updateFirstBy_map Proposal.created_at (fun p => { p with status := "approved" })
        (fun p => rfl) st.mock_db item_id
    · simp [approve_proposal, h]
  · by_cases h : hasId st.mock_db item_id
    · simp only [schedule_proposal, h, if_true]
      exact updateFirstBy_map Proposal.created_at
        (fun p => { p with status := "scheduled", scheduled_date := d })
        (fun p => rfl) st.mock_db item_id
    · simp [schedule_proposal, h]
  · simp only [update_category]
    by_cases h1 : strip new_name = ""
    · rw [if_pos h1]
    · rw [if_neg h1]
      by_cases h2 : strip new_name ∈ st.mock_categories
      · rw [if_pos h2]
      · rw [if_neg h2]
        show (st.mock_db.map
            (fun p =>
              if p.category = old_name then { p with category := strip new_name } else p)).map
            Proposal.created_at = st.mock_db.map Proposal.created_at
        rw [List.map_map]
        apply List.map_congr_left
        intro p _
        by_cases hc : p.category = old_name <;> simp [hc]
  · intro hnot
    by_cases h : hasId st.mock_db item_id
    · simp only [update_proposal, h, if_true]
      exact updateFirstBy_map Proposal.created_at _
        (fun p => foldl_setField_created_at updates p hnot) st.mock_db item_id
    · simp [update_proposal, h]

/-- C9 witness: on a concrete store, approve and a title-only update both
leave `created_at` at its creation value `"T0"`. -/
theorem C9_created_at_witness :
    (approve_proposal ⟨[⟨"1", "あなた", "温泉旅行", "旅行", "", "pending", "T0", ""⟩], ["旅行"]⟩
        "1").2.mock_db.map Proposal.created_at = ["T0"] ∧
    (update_proposal ⟨[⟨"1", "あなた", "温泉旅行", "旅行", "", "pending", "T0", ""⟩], ["旅行"]⟩
        "1" [("title", "X")]).2.mock_db.map Proposal.created_at = ["T0"] := by
  have h := C9_created_at_preservation
    ⟨[⟨"1", "あなた", "温泉旅行", "旅行", "", "pending", "T0", ""⟩], ["旅行"]⟩
    "1" "2024-07-01" "旅行" "温泉" [("title", "X")]
  constructor
  · rw [h.1]; decide
  · rw [h.2.2.2.1 (by decide)]; decide

/-- C9 counterexample: the mock-mode field-mapping update accepts the key
`"created_at"` (it is one of the DataFrame columns) and overwrites the
field: the claim that no offered operation ever changes `created_at` fails. -/
theorem C9_counterexample :
    (update_proposal ⟨[⟨"1", "あなた", "温泉旅行", "旅行", "", "pending", "T0", ""⟩], ["旅行"]⟩
        "1" [("created_at", "T9")]).1 = true ∧
    (update_proposal ⟨[⟨"1", "あなた", "温泉旅行", "旅行", "", "pending", "T0", ""⟩], ["旅行"]⟩
        "1" [("created_at", "T9")]).2.mock_db.map Proposal.created_at = ["T9"] := by
  decide

lemma keepFirstFuel_congr :
    ∀ (fuel₁ fuel₂ : Nat) (l : List String), l.length ≤ fuel₁ → l.length ≤ fuel₂ →
      keepFirstFuel fuel₁ l = keepFirstFuel fuel₂ l := by
  intro fuel₁
  induction fuel₁ with
  | zero =>
      intro fuel₂ l h1 _
      have hl : l = [] := List.eq_nil_of_length_eq_zero (Nat.le_zero.mp h1)
      subst hl
      cases fuel₂ <;> rfl
  | succ n ih =>
      intro fuel₂ l h1 h2
      cases l with
      | nil => cases fuel₂ <;> rfl
      | cons x xs =>
          cases fuel₂ with
          | zero => exact absurd h2 (by simp)
          | succ m =>
              simp only [keepFirstFuel]
              have hle : (xs.filter (fun y => y ≠ x)).length ≤ xs.length :=
                List.length_filter_le _ _
              rw [ih m (xs.filter (fun y => y ≠ x))
                (hle.trans (Nat.lt_succ_iff.mp (Nat.lt_of_succ_le (by simpa using h1))))
                (hle.trans (Nat.lt_succ_iff.mp (Nat.lt_of_succ_le (by simpa using h2))))]

lemma keepFirst_cons (x : String) (xs : List String) :
    keepFirst (x :: xs) = x :: keepFirst (xs.filter (fun y => y ≠ x)) := by
  show keepFirstFuel (x :: xs).length (x :: xs) = _
  simp only [List.length_cons, keepFirstFuel, keepFirst]
  rw [keepFirstFuel_congr xs.length (xs.filter (fun y => y ≠ x)).length
    (xs.filter (fun y => y ≠ x)) (List.length_filter_le _ _) le_rfl]

lemma keepFirstFuel_sublist :
    ∀ (fuel : Nat) (l : List String), List.Sublist (keepFirstFuel fuel l) l := by
  intro fuel
  induction fuel with
  | zero =>
      intro l
      cases l with
      | nil => exact List.Sublist.refl []
      | cons x xs => exact List.nil_sublist _
  | succ n ih =>
      intro l
      cases l with
      | nil => exact List.Sublist.refl []
      | cons x xs =>
          simp only [keepFirstFuel]
          exact List.Sublist.cons₂ x ((ih _).trans (List.filter_sublist xs))

lemma keepFirstFuel_mem :
    ∀ (fuel : Nat) (l : List String) (x : String), l.length ≤ fuel → x ∈ l →
      x ∈ keepFirstFuel fuel l := by
  intro fuel
  induction fuel with
  | zero =>
      intro l x h1 hmem
      have hl : l = [] := List.eq_nil_of_length_eq_zero (Nat.le_zero.mp h1)
      subst hl
      simp at hmem
  | succ n ih =>
      intro l x h1 hmem
      cases l with
      | nil => simp at hmem
      | cons a xs =>
          simp only [keepFirstFuel, List.mem_cons]
          by_cases hx : x = a
          · exact Or.inl hx
          · refine Or.inr (ih _ x ?_ ?_)
            · exact (List.length_filter_le _ _).trans (by simpa using h1)
            · rw [List.mem_filter]
              exact ⟨(List.mem_cons.mp hmem).resolve_left hx, by simp [hx]⟩

lemma keepFirstFuel_nodup :
    ∀ (fuel : Nat) (l : List String), l.length ≤ fuel → (keepFirstFuel fuel l).Nodup := by
  intro fuel
  induction fuel with
  | zero =>
      intro l h1
      have hl : l = [] := List.eq_nil_of_length_eq_zero (Nat.le_zero.mp h1)
      subst hl
      exact List.nodup_nil
  | succ n ih =>
      intro l h1
      cases l with
      | nil => exact List.nodup_nil
      | cons a xs =>
          simp only [keepFirstFuel, List.nodup_cons]
          constructor
          · intro hmem
            have : a ∈ xs.filter (fun y => y ≠ a) :=
              (keepFirstFuel_sublist n _).subset hmem
            rw [List.mem_filter] at this
            simp at this
          · exact ih _ ((List.length_filter_le _ _).trans (by simpa using h1))

lemma dedupeLoop_eq :
    ∀ (rows categories seen : List String),
      dedupeLoop rows categories seen =
        categories ++ keepFirst
          (((rows.map strip).filter (fun r => r ≠ "")).filter (fun r => r ∉ seen)) := by
  intro rows
  induction rows with
  | nil =>
      intro categories seen
      simp [dedupeLoop, keepFirst, keepFirstFuel]
  | cons r rest ih =>
      intro categories seen
      simp only [dedupeLoop, List.map_cons]
      by_cases h1 : strip r = ""
      · rw [if_neg (by simp [h1])]
        rw [List.filter_cons_of_neg (by simp [h1])]
        exact ih categories seen
      · by_cases h2 : strip r ∈ seen
        · rw [if_neg (by simp [h2])]
          rw [List.filter_cons_of_pos (by simp [h1]), List.filter_cons_of_neg (by simp [h2])]
          exact ih categories seen
        · rw [if_pos ⟨h1, h2⟩]
          rw [List.filter_cons_of_pos (by simp [h1]), List.filter_cons_of_pos (by simp [h2])]
          rw [keepFirst_cons, ih (categories ++ [strip r]) (strip r :: seen)]
          rw [List.append_assoc]
          congr 1
          show [strip r] ++ _ = strip r :: _
          rw [List.singleton_append]
          congr 1
          simp only [List.filter_filter]
          congr 1
          apply List.filter_congr
          intro a _
          by_cases ha1 : a = strip r <;> by_cases ha2 : a ∈ seen <;> by_cases ha3 : a = "" <;>
            simp [ha1, ha2, ha3, List.mem_cons]

/-- C7: the remote category fetch never returns an empty sequence; an
unreachable backing collection (`none`) or one with at most one entry
(header only) yields the fixed default set; otherwise the first (header)
entry is excluded and the remaining entries, after trimming and dropping
empties, are deduplicated keeping only each name's first occurrence in
order (`keepFirst`, a duplicate-free order-preserving sub-sequence with the
same members), with the default set substituted when nothing survives. -/
theorem C7_fetch_categories_spec :
    (∀ raw, fetch_categories_remote raw ≠ []) ∧
    fetch_categories_remote none = defaultCategories ∧
    (∀ rows, rows.length ≤ 1 → fetch_categories_remote (some rows) = defaultCategories) ∧
    (∀ hd t, fetch_categories_remote (some (hd :: t)) =
      if dedupeLoop t [] [] = [] then defaultCategories else dedupeLoop t [] []) ∧
    (∀ l, dedupeLoop l [] [] = keepFirst ((l.map strip).filter (fun r => r ≠ ""))) ∧
    (∀ l : List String,
      (keepFirst l).Nodup ∧ List.Sublist (keepFirst l) l ∧
        ∀ x, (x ∈ keepFirst l ↔ x ∈ l)) := by
  have hdefault : defaultCategories ≠ [] := by decide
  refine ⟨?_, rfl, ?_, ?_, ?_, ?_⟩
  · intro raw
    cases raw with
    | none => exact hdefault
    | some rows =>
        simp only [fetch_categories_remote]
        split_ifs with h1 h2
        · exact hdefault
        · exact hdefault
        · exact h2
  · intro rows h
    simp only [fetch_categories_remote]
    rw [if_pos h]
  · intro hd t
    cases t with
    | nil => simp [fetch_categories_remote, dedupeLoop]
    | cons a t' =>
        simp only [fetch_categories_remote]
        rw [if_neg (by simp)]
        rfl
  · intro l
    rw [dedupeLoop_eq l [] []]
    simp
  · intro l
    exact ⟨keepFirstFuel_nodup _ _ le_rfl, keepFirstFuel_sublist _ _,
      fun x => ⟨fun hx => (keepFirstFuel_sublist _ _).subset hx,
        fun hx => keepFirstFuel_mem _ _ x le_rfl hx⟩⟩

/-- C7 witness: on a concrete backing column the header is dropped,
whitespace is trimmed, the duplicate and the empty entry are removed; and
the degenerate inputs fall back to the default set. -/
theorem C7_fetch_categories_witness :
    fetch_categories_remote (some ["category_name", " 旅行 ", "旅行", "", "温泉"]) =
      ["旅行", "温泉"] ∧
    fetch_categories_remote none = defaultCategories ∧
    fetch_categories_remote (some ["category_name"]) = defaultCategories ∧
    dedupeLoop [" 旅行 ", "旅行", "", "温泉"] [] [] =
      keepFirst (([" 旅行 ", "旅行", "", "温泉"].map strip).filter (fun r => r ≠ "")) := by
  have h := C7_fetch_categories_spec
  refine ⟨?_, h.2.1, h.2.2.1 ["category_name"] (by decide),
    h.2.2.2.2.1 [" 旅行 ", "旅行", "", "温泉"]⟩
  rw [h.2.2.2.1 "category_name" [" 旅行 ", "旅行", "", "温泉"]]
  decide

end CoupleCalendar
